/-
Verification of the zucker query-view subsystem.

This file gives a shallow embedding, in Lean 4, of the parts of the zucker
repository that its specification makes claims about:

* Python `range` objects and Python slice arithmetic, which back the
  view's lazy index window (`zucker/model/view.py`),
* the `View` state (filter, range, pending slices, size, record cache)
  together with `_clone`, `filtered`, slicing, `_calculate_range`,
  `_index_to_offset`, offset fetching and `get_by_id`,
* record state with `_prepare_save` (`zucker/model/module.py`),
* `FilterSet` construction and rendering (`zucker/filtering/combining.py`),
* the bulk batching coordinator's response validation and round loop
  (`zucker/client/base.py`).

JSON values are modelled by the inductive `Json` below; Python integers are
`Int`; fallible Python code returns `Except PyError`.  Network traffic is made
explicit: operations that may talk to the server return, next to their result,
the list of requests they issued, and take a `server` function mapping each
request to its raw JSON response.
-/
import Mathlib

namespace Zucker

/-- JSON values.  Python dictionaries are association lists in insertion
order; JSON numbers are modelled as (unbounded) integers, matching the
integer payloads the subsystem inspects (`record_count`, bulk `status`);
floats are out of scope. -/
inductive Json where
  | null : Json
  | bool (b : Bool) : Json
  | num (n : Int) : Json
  | str (s : String) : Json
  | arr (items : List Json) : Json
  | obj (fields : List (String × Json)) : Json
deriving Repr

mutual

/-- Decidable equality for `Json` (written by hand because `deriving` does not
handle the nested lists). -/
def Json.decEq : (a b : Json) → Decidable (a = b)
  | .null, .null => isTrue rfl
  | .bool a, .bool b =>
    if h : a = b then isTrue (by rw [h]) else isFalse (fun he => h (by cases he; rfl))
  | .num a, .num b =>
    if h : a = b then isTrue (by rw [h]) else isFalse (fun he => h (by cases he; rfl))
  | .str a, .str b =>
    if h : a = b then isTrue (by rw [h]) else isFalse (fun he => h (by cases he; rfl))
  | .arr a, .arr b =>
    match Json.decEqList a b with
    | isTrue h => isTrue (by rw [h])
    | isFalse h => isFalse (fun he => h (by cases he; rfl))
  | .obj a, .obj b =>
    match Json.decEqFields a b with
    | isTrue h => isTrue (by rw [h])
    | isFalse h => isFalse (fun he => h (by cases he; rfl))
  | .null, .bool _ => isFalse (fun h => nomatch h)
  | .null, .num _ => isFalse (fun h => nomatch h)
  | .null, .str _ => isFalse (fun h => nomatch h)
  | .null, .arr _ => isFalse (fun h => nomatch h)
  | .null, .obj _ => isFalse (fun h => nomatch h)
  | .bool _, .null => isFalse (fun h => nomatch h)
  | .bool _, .num _ => isFalse (fun h => nomatch h)
  | .bool _, .str _ => isFalse (fun h => nomatch h)
  | .bool _, .arr _ => isFalse (fun h => nomatch h)
  | .bool _, .obj _ => isFalse (fun h => nomatch h)
  | .num _, .null => isFalse (fun h => nomatch h)
  | .num _, .bool _ => isFalse (fun h => nomatch h)
  | .num _, .str _ => isFalse (fun h => nomatch h)
  | .num _, .arr _ => isFalse (fun h => nomatch h)
  | .num _, .obj _ => isFalse (fun h => nomatch h)
  | .str _, .null => isFalse (fun h => nomatch h)
  | .str _, .bool _ => isFalse (fun h => nomatch h)
  | .str _, .num _ => isFalse (fun h => nomatch h)
  | .str _, .arr _ => isFalse (fun h => nomatch h)
  | .str _, .obj _ => isFalse (fun h => nomatch h)
  | .arr _, .null => isFalse (fun h => nomatch h)
  | .arr _, .bool _ => isFalse (fun h => nomatch h)
  | .arr _, .num _ => isFalse (fun h => nomatch h)
  | .arr _, .str _ => isFalse (fun h => nomatch h)
  | .arr _, .obj _ => isFalse (fun h => nomatch h)
  | .obj _, .null => isFalse (fun h => nomatch h)
  | .obj _, .bool _ => isFalse (fun h => nomatch h)
  | .obj _, .num _ => isFalse (fun h => nomatch h)
  | .obj _, .str _ => isFalse (fun h => nomatch h)
  | .obj _, .arr _ => isFalse (fun h => nomatch h)

def Json.decEqList : (a b : List Json) → Decidable (a = b)
  | [], [] => isTrue rfl
  | [], _ :: _ => isFalse (fun h => nomatch h)
  | _ :: _, [] => isFalse (fun h => nomatch h)
  | x :: xs, y :: ys =>
    match Json.decEq x y, Json.decEqList xs ys with
    | isTrue h1, isTrue h2 => isTrue (by rw [h1, h2])
    | isFalse h1, _ => isFalse (fun he => h1 (by cases he; rfl))
    | _, isFalse h2 => isFalse (fun he => h2 (by cases he; rfl))

def Json.decEqFields : (a b : List (String × Json)) → Decidable (a = b)
  | [], [] => isTrue rfl
  | [], _ :: _ => isFalse (fun h => nomatch h)
  | _ :: _, [] => isFalse (fun h => nomatch h)
  | (k1, v1) :: xs, (k2, v2) :: ys =>
    match String.decEq k1 k2, Json.decEq v1 v2, Json.decEqFields xs ys with
    | isTrue h0, isTrue h1, isTrue h2 => isTrue (by rw [h0, h1, h2])
    | isFalse h0, _, _ => isFalse (fun he => h0 (by cases he; rfl))
    | _, isFalse h1, _ => isFalse (fun he => h1 (by cases he; rfl))
    | _, _, isFalse h2 => isFalse (fun he => h2 (by cases he; rfl))

end

instance : DecidableEq Json := Json.decEq

/-- The Python exception types raised by the embedded code. -/
inductive PyError where
  | typeError
  | valueError
  | keyError
  | indexError
  | invalidSugarResponse
deriving Repr, DecidableEq

/-- `dict.get(key)` on an association list: first binding wins. -/
def jsonLookup : List (String × Json) → String → Option Json
  | [], _ => none
  | (k, v) :: rest, key => if k = key then some v else jsonLookup rest key

/-- `dict[key] = value`: replace the binding in place if the key is present,
otherwise append it (Python dicts keep insertion order). -/
def jsonInsert : List (String × Json) → String → Json → List (String × Json)
  | [], key, value => [(key, value)]
  | (k, v) :: rest, key, value =>
    if k = key then (k, value) :: rest else (k, v) :: jsonInsert rest key value

/-- `data.get(key)` when `data` may be any JSON value (missing key on
anything that is not an object). -/
def Json.get : Json → String → Option Json
  | .obj fields, key => jsonLookup fields key
  | _, _ => none

/-- `isinstance(x, collections.abc.Sequence)`: lists *and strings* count as
sequences in Python. -/
def Json.isSequence : Json → Bool
  | .arr _ => true
  | .str _ => true
  | _ => false

/-- `len(x)` for the sequence values above. -/
def Json.seqLen : Json → Nat
  | .arr items => items.length
  | .str s => s.length
  | _ => 0

/-- `x[i]` for the sequence values above (indexing a string yields a
one-character string). -/
def Json.seqGet : Json → Nat → Option Json
  | .arr items, i => items.get? i
  | .str s, i => (s.data.get? i).map (fun c => Json.str (String.mk [c]))
  | _, _ => none

/-- `str(x)` for the primitive values that can appear where the code
formats a JSON value into a string.  Composite values never reach these
call sites in the verified paths; their Python `repr` is abstracted. -/
def pyStr : Json → String
  | .null => "None"
  | .bool true => "True"
  | .bool false => "False"
  | .num n => toString n
  | .str s => s
  | .arr _ => "<sequence>"
  | .obj _ => "<mapping>"

/-! ## Python `range` objects

A Python `range(start, stop, step)` with `step ≠ 0`.  `pyRangeLen` mirrors
CPython's length computation, `pyRangeGet` indexing by a non-negative index,
and `rangeSlice` the `range.__getitem__` slice path. -/

structure PyRange where
  start : Int
  stop : Int
  step : Int
deriving Repr, DecidableEq

/-- `len(range(start, stop, step))` (CPython `compute_range_length`). -/
def pyRangeLen (r : PyRange) : Nat :=
  if 0 < r.step then
    if r.start < r.stop then ((r.stop - r.start - 1).fdiv r.step).toNat + 1 else 0
  else
    if r.stop < r.start then ((r.start - r.stop - 1).fdiv (-r.step)).toNat + 1 else 0

/-- `range(...)[i]` for a non-negative index `i`, or `None` on overflow
(CPython `compute_range_item` after the bounds check). -/
def pyRangeGet (r : PyRange) (i : Nat) : Option Int :=
  if i < pyRangeLen r then some (r.start + r.step * i) else none

/-- `list(range(...))`. -/
def pyRangeToList (r : PyRange) : List Int :=
  (List.range (pyRangeLen r)).map (fun (i : Nat) => r.start + r.step * (i : Int))

/-- A Python `slice(start, stop, step)` literal with optional components. -/
structure PySlice where
  start : Option Int
  stop : Option Int
  step : Option Int
deriving Repr, DecidableEq

/-- Adjust one explicit slice bound against a length (CPython
`PySlice_AdjustIndices`): negative bounds count from the end, then clamp. -/
def sliceAdjustBound (length : Int) (step : Int) (v : Int) : Int :=
  if v < 0 then
    if v + length < 0 then (if step < 0 then -1 else 0) else v + length
  else
    if v ≥ length then (if step < 0 then length - 1 else length) else v

/-- The bound/length computation of `slice.indices(length)` for a non-zero
step (CPython `PySlice_Unpack` followed by `PySlice_AdjustIndices`):
omitted bounds default to the ends appropriate for the step's sign. -/
def sliceBounds (s : PySlice) (length : Nat) : Int × Int × Int × Nat :=
  let step := s.step.getD 1
  let start := match s.start with
    | none => if step < 0 then (length : Int) - 1 else 0
    | some v => sliceAdjustBound length step v
  let stop := match s.stop with
    | none => if step < 0 then -1 else (length : Int)
    | some v => sliceAdjustBound length step v
  let slicelength : Nat :=
    if step < 0 then
      if stop < start then ((start - stop - 1).fdiv (-step)).toNat + 1 else 0
    else
      if start < stop then ((stop - start - 1).fdiv step).toNat + 1 else 0
  (start, stop, step, slicelength)

/-- `slice.indices(length)`: the bounds above, or `ValueError` for a zero
step. -/
def sliceIndices (s : PySlice) (length : Nat) : Except PyError (Int × Int × Int × Nat) :=
  if s.step.getD 1 = 0 then .error .valueError
  else .ok (sliceBounds s length)

/-- `range.__getitem__` with a slice argument (CPython `compute_slice` in
`rangeobject.c`): re-index the range through the adjusted slice bounds. -/
def rangeSlice (r : PyRange) (s : PySlice) : Except PyError PyRange :=
  match sliceIndices s (pyRangeLen r) with
  | .error e => .error e
  | .ok (start, stop, step, _) =>
    .ok { start := r.start + start * r.step
          stop := r.start + stop * r.step
          step := r.step * step }

/-! ## Filter expressions (`zucker/filtering/combining.py`)

After `FilterSet.__init__` has run, every element of `self._parts` is a plain
(deep-copied) JSON mapping: nested `FilterSet`s have been flattened away or
rendered via `build_filter`.  We therefore model a constructed `FilterSet` as a
`Combinator` together with a `List Json` of object parts, and the *arguments*
of the constructor by `FilterPart` (a constructed sub-`FilterSet`, or a raw
mapping / rendered `GenericFilter`). -/

inductive Combinator where
  | or
  | and
deriving Repr, DecidableEq

/-- `Combinator.value` (the enum's string payload). -/
def Combinator.value : Combinator → String
  | .or => "$or"
  | .and => "$and"

inductive FilterPart where
  | sub (combinator : Combinator) (parts : List Json)
  | raw (m : Json)
deriving Repr

/-- Re-scanning a spliced run of already-processed parts: each must be a
mapping (anything else raises `TypeError`) and is appended to the
accumulated parts, mirroring one `deepcopy`-and-advance iteration of the
`__init__` loop per element. -/
def appendRawParts (acc : List Json) : List Json → Except PyError (List Json)
  | [] => .ok acc
  | m :: rest =>
    match m with
    | .obj _ => appendRawParts (acc ++ [m]) rest
    | _ => .error .typeError

/-- The `while` loop of `FilterSet.__init__`, processing the given parts left
to right.  `acc` holds the already-processed (kept) parts, which in the Python
object are the list prefix before `index`.  `merge_other` ("the new filterset
is the only part we currently have") requires every *other* part to be `None`:
the kept prefix must be empty and everything after the current part `None`.
(Python compares parts by object identity here, since `FilterSet` defines no
`__eq__`; aliasing one part object at several positions is not modelled.) -/
def filterSetLoop (combinator : Combinator) (acc : List Json) :
    List (Option FilterPart) → Except PyError (Combinator × List Json)
  | [] => .ok (combinator, acc)
  | none :: rest => filterSetLoop combinator acc rest
  | some (.raw m) :: rest =>
    match m with
    | .obj _ => filterSetLoop combinator (acc ++ [m]) rest
    | _ => .error .typeError
  | some (.sub c2 ps) :: rest =>
    let merge_other := acc.isEmpty && rest.all Option.isNone
    if c2 = combinator ∨ ps.length < 2 ∨ merge_other then
      match appendRawParts acc ps with
      | .ok acc2 => filterSetLoop (if merge_other then c2 else combinator) acc2 rest
      | .error e => .error e
    else
      filterSetLoop combinator (acc ++ [Json.obj [(c2.value, Json.arr ps)]]) rest

/-- `FilterSet.__init__`: returns the constructed `(combinator, _parts)`
state, or the `TypeError` the constructor raises on an invalid part. -/
def mkFilterSet (combinator : Combinator) (given_parts : List (Option FilterPart)) :
    Except PyError (Combinator × List Json) :=
  filterSetLoop combinator [] given_parts

/-- `FilterSet.build_filter` on a constructed filter set. -/
def buildFilterSet (combinator : Combinator) (parts : List Json) : Json :=
  .obj [(combinator.value, .arr parts)]

/-! ## Records (`zucker/model/module.py`) -/

/-- The static data of a bound module class that the view and save paths
consume: its API name and the declared field names. -/
structure ModuleInfo where
  apiName : String
  fieldNames : List String
deriving Repr, DecidableEq

/-- A record's mutable state: server-confirmed data and local unsaved
updates (`BaseModule._original_data` / `_updated_data`). -/
structure RecordState where
  original_data : List (String × Json)
  updated_data : List (String × Json)
deriving Repr, DecidableEq

/-- `BaseModule.__getitem__`: updated data shadows original data; a missing
key (Python `KeyError`) is `none`.  `get_data(key)` with the default `None`
coincides with this. -/
def recordGetItem (r : RecordState) (key : String) : Option Json :=
  match jsonLookup r.updated_data key with
  | some v => some v
  | none => jsonLookup r.original_data key

/-- `key.startswith("_")`, expressed over the key's characters. -/
def startsWithUnderscore (key : String) : Bool :=
  match key.toList with
  | '_' :: _ => true
  | _ => false

/-- `BaseModule._set_data`: keep only keys without a leading underscore as
the original data and clear the updated data. -/
def recordSetData (data : List (String × Json)) : RecordState :=
  { original_data := data.filter (fun kv => !(startsWithUnderscore kv.1))
    updated_data := [] }

/-- `self._module(**check_json_mapping(record_data))` as performed by the
view when building a record from a fetched payload: `check_json_mapping`
raises `TypeError` on a non-mapping (which the caller converts into
`InvalidSugarResponseError`), and `BoundModule._set_data` raises
`ValueError` when the payload's `_module` key does not match the module's
API name. -/
def buildRecord (m : ModuleInfo) (payload : Json) : Except PyError RecordState :=
  match payload with
  | .obj fields =>
    match jsonLookup fields "_module" with
    | none => .ok (recordSetData fields)
    | some (.str s) => if s = m.apiName then .ok (recordSetData fields) else .error .valueError
    | some _ => .error .valueError
  | _ => .error .typeError

/-- First-occurrence deduplication of a key list; stands in for Python's
`set(...)` over dictionary keys (the claims only use key membership, which
is order-independent). -/
def dedupKeys : List String → List String
  | [] => []
  | k :: rest => k :: (dedupKeys rest).filter (fun k2 => k2 ≠ k)

/-- `BoundModule._prepare_save`: returns the `(HTTP method, endpoint, JSON
body)` triple that `save()` passes to the client. -/
def prepare_save (m : ModuleInfo) (r : RecordState) : Except PyError (String × String × List (String × Json)) :=
  let record_id := recordGetItem r "id"
  let data_keys : List String :=
    match record_id with
    | none => dedupKeys (r.updated_data.map Prod.fst ++ r.original_data.map Prod.fst)
    | some _ => dedupKeys (r.updated_data.map Prod.fst)
  if data_keys.any (fun k => startsWithUnderscore k) then .error .valueError
  else
    let data := data_keys.map (fun k => (k, (recordGetItem r k).getD .null))
    match record_id with
    | none => .ok ("post", m.apiName, data)
    | some record_id_value =>
      if "id" ∈ data_keys then .error .valueError
      else .ok ("put", m.apiName ++ "/" ++ pyStr record_id_value, data)

/-! ## Views (`zucker/model/view.py`)

`SyncView` operations are embedded as explicit state passing.  Every
operation that may talk to the server takes a `server : Request → Json`
oracle and returns, next to its `Except` result, the list of requests it
issued (in order).  `AsyncView` shares the same addressing/caching code;
its `_calculate_range` copies the pending-slice list before applying it,
which has the same sequential semantics. -/

/-- A generic filter object as stored in `View._filter`: either a
constructed `FilterSet` or a basic field filter (kept as its rendered
`build_filter` output).  Lean's structural equality models Python's
object-identity comparison in `_clone` (filter classes define no `__eq__`;
a caller reusing the same object is modelled by equal values). -/
inductive GenericFilterV where
  | fset (combinator : Combinator) (parts : List Json)
  | basic (rendered : Json)
deriving Repr, DecidableEq

/-- `GenericFilter.build_filter`. -/
def GenericFilterV.build_filter : GenericFilterV → Json
  | .fset c parts => buildFilterSet c parts
  | .basic m => m

/-- A generic filter as an argument to `FilterSet.__init__`: a `FilterSet`
contributes its constructed state, any other `GenericFilter` is rendered. -/
def genericFilterToPart : GenericFilterV → FilterPart
  | .fset c ps => .sub c ps
  | .basic m => .raw m

/-- One HTTP request issued through the client: method, endpoint and query
parameters, exactly the triple the view hands to `client.request`. -/
structure Request where
  method : String
  endpoint : String
  params : List (String × String)
deriving Repr, DecidableEq

/-- The state of a `View` (the fields set up by `View.__init__`). -/
structure ViewState where
  module_info : ModuleInfo
  base_endpoint : String
  filter : Option GenericFilterV
  range : Option PyRange
  pending_slices : List PySlice
  size : Option Int
  record_cache : List (Int × Option RecordState)
deriving Repr, DecidableEq

/-- `View.__init__`. -/
def View.init (m : ModuleInfo) (base_endpoint : String) : ViewState :=
  { module_info := m, base_endpoint := base_endpoint, filter := none,
    range := none, pending_slices := [], size := none, record_cache := [] }

/-- `self._record_cache.get(offset, None)` distinguishing a missing key
(`none`) from a stored `None` (`some none`). -/
def cacheLookup : List (Int × Option RecordState) → Int → Option (Option RecordState)
  | [], _ => none
  | (k, r) :: rest, offset => if k = offset then some r else cacheLookup rest offset

/-- `self._record_cache[offset] = record`. -/
def cacheInsert : List (Int × Option RecordState) → Int → Option RecordState → List (Int × Option RecordState)
  | [], offset, rec => [(offset, rec)]
  | (k, r) :: rest, offset, rec =>
    if k = offset then (k, rec) :: rest else (k, r) :: cacheInsert rest offset rec

mutual

/-- The recursive `parse_filter` helper of `View._filter_query_params`:
primitives become `filter<...>=value` parameters, mappings recurse with
`[key]` and sequences with `[index]` brackets; `None` raises `TypeError`. -/
def parse_filter (pre : String) : Json → Except PyError (List (String × String))
  | .str s => .ok [("filter" ++ pre, s)]
  | .num n => .ok [("filter" ++ pre, toString n)]
  | .bool b => .ok [("filter" ++ pre, if b then "True" else "False")]
  | .obj fields => parse_filter_obj pre fields
  | .arr items => parse_filter_arr pre 0 items
  | .null => .error .typeError

def parse_filter_obj (pre : String) : List (String × Json) → Except PyError (List (String × String))
  | [] => .ok []
  | (k, value) :: rest => do
    let a ← parse_filter (pre ++ "[" ++ k ++ "]") value
    let b ← parse_filter_obj pre rest
    return a ++ b

def parse_filter_arr (pre : String) (i : Nat) : List Json → Except PyError (List (String × String))
  | [] => .ok []
  | value :: rest => do
    let a ← parse_filter (pre ++ "[" ++ toString i ++ "]") value
    let b ← parse_filter_arr pre (i + 1) rest
    return a ++ b

end

/-- `View._filter_query_params`. -/
def filter_query_params (v : ViewState) : Except PyError (List (String × String)) :=
  match v.filter with
  | none => .ok []
  | some f => parse_filter "" (Json.arr [f.build_filter])

/-- `View._query_params` (declared field names plus rendered filter). -/
def query_params (v : ViewState) : Except PyError (List (String × String)) := do
  let fp ← filter_query_params v
  return [("fields", String.intercalate "," v.module_info.fieldNames)] ++ fp

/-- `View._clone`: the new view starts with the same filter, range and a
copy of the pending slices but a fresh empty cache and unknown size; the
context-manager body then mutates it; on exit, the cache and size are
shared back *only if the body did not change the filter*. -/
def cloneWith (v : ViewState) (body : ViewState → ViewState) : ViewState :=
  let view : ViewState :=
    { module_info := v.module_info, base_endpoint := v.base_endpoint,
      filter := v.filter, range := v.range, pending_slices := v.pending_slices,
      size := none, record_cache := [] }
  let view := body view
  if view.filter ≠ v.filter then view
  else { view with record_cache := v.record_cache, size := v.size }

/-- The slice case of `View.__getitem__`: clone and append the slice to the
pending list (the slice components are integers or `None` by the type of
`PySlice`, so the `TypeError` branch cannot fire). -/
def getitem_slice (v : ViewState) (s : PySlice) : ViewState :=
  cloneWith v (fun view => { view with pending_slices := view.pending_slices ++ [s] })

/-- `View.filtered`: a single argument that is already a full generic filter
replaces the view's filter; otherwise the old filter and all arguments are
AND-ed into a fresh `FilterSet`.  Arguments are generic filters (`inl`) or
raw mappings (`inr`). -/
def filtered (v : ViewState) (fs : List (GenericFilterV ⊕ Json)) : Except PyError ViewState :=
  match fs with
  | [Sum.inl g] => .ok (cloneWith v (fun view => { view with filter := some g }))
  | _ => do
    let parts : List (Option FilterPart) :=
      (v.filter.map genericFilterToPart) ::
        fs.map (fun f => some (match f with | .inl g => genericFilterToPart g | .inr m => .raw m))
    let (c, ps) ← mkFilterSet .and parts
    return cloneWith v (fun view => { view with filter := some (.fset c ps) })

/-- `view.reversed()` / the view used by `__reversed__`: `view[::-1]`. -/
def view_reversed (v : ViewState) : ViewState :=
  getitem_slice v { start := none, stop := none, step := some (-1) }

/-- The body of `filtered` as used through `_clone`'s context manager:
clone, then assign the given filter to the clone. -/
def clone_with_filter (v : ViewState) (f : Option GenericFilterV) : ViewState :=
  cloneWith v (fun view => { view with filter := f })

/-- The `/count` request `_fetch_size` issues. -/
def countRequest (v : ViewState) (qp : List (String × String)) : Request :=
  { method := "get", endpoint := v.base_endpoint ++ "/count", params := qp }

/-- The single-record request `_prepare_get_by_offset` builds for an
uncached offset: `max_num=1, offset=<n>` plus the query parameters. -/
def offsetRequest (v : ViewState) (offset : Int) (qp : List (String × String)) : Request :=
  { method := "get", endpoint := v.base_endpoint,
    params := [("max_num", "1"), ("offset", toString offset)] ++ qp }

/-- `SyncView._fetch_size`: one request to the `/count` endpoint; the
response must carry an integer `record_count` (a Python `bool` is an
`int`). -/
def _fetch_size (server : Request → Json) (v : ViewState) :
    Except PyError Int × List Request :=
  match query_params v with
  | .error e => (.error e, [])
  | .ok qp =>
    let req : Request := countRequest v qp
    match (server req).get "record_count" with
    | some (.num n) => (.ok n, [req])
    | some (.bool b) => (.ok (if b then 1 else 0), [req])
    | _ => (.error .invalidSugarResponse, [req])

/-- Applying the pending slices in request order (`while` loop at the end of
`_calculate_range`). -/
def applySlices (r : PyRange) : List PySlice → Except PyError PyRange
  | [] => .ok r
  | s :: rest => do applySlices (← rangeSlice r s) rest

/-- `SyncView._calculate_range`: resolve the range (fetching the total size
first if neither range nor size is known), then apply all pending slices.
On success the resolved range is returned together with the updated view. -/
def _calculate_range (server : Request → Json) (v : ViewState) :
    Except PyError (PyRange × ViewState) × List Request :=
  let withBase : Except PyError (PyRange × ViewState) × List Request :=
    match v.range with
    | some r => (.ok (r, v), [])
    | none =>
      match v.size with
      | some n => (.ok (⟨0, n, 1⟩, { v with range := some ⟨0, n, 1⟩ }), [])
      | none =>
        match _fetch_size server v with
        | (.ok n, tr) => (.ok (⟨0, n, 1⟩, { v with size := some n, range := some ⟨0, n, 1⟩ }), tr)
        | (.error e, tr) => (.error e, tr)
  match withBase with
  | (.error e, tr) => (.error e, tr)
  | (.ok (r, v1), tr) =>
    match applySlices r v1.pending_slices with
    | .ok r2 => (.ok (r2, { v1 with range := some r2, pending_slices := [] }), tr)
    | .error e => (.error e, tr)

/-- `View._index_to_offset`: negative indexes map to "not found"; otherwise
index into the resolved range.  (The source asserts that the range has been
calculated; all callers establish this.) -/
def _index_to_offset (v : ViewState) (index : Int) : Option Int :=
  if index < 0 then none
  else
    match v.range with
    | some r => pyRangeGet r index.toNat
    | none => none

/-- `View._prepare_get_by_offset`: serve a *present* cache entry (a cached
`None` is skipped because of the `is not None` test), otherwise build the
single-record request `max_num=1, offset=<n>` plus the query parameters. -/
def _prepare_get_by_offset (v : ViewState) (offset : Int) :
    Except PyError (RecordState ⊕ Request) :=
  match cacheLookup v.record_cache offset with
  | some (some rec) => .ok (.inl rec)
  | _ =>
    match query_params v with
    | .error e => .error e
    | .ok qp => .ok (.inr (offsetRequest v offset qp))

/-- `View._finalize_get_by_offset`: the response must carry a `records`
sequence of length at most 1; an empty sequence caches and returns "no
record"; a singleton builds the record (a `TypeError` from
`check_json_mapping`/record construction becomes
`InvalidSugarResponseError`), caches it and returns it. -/
def _finalize_get_by_offset (v : ViewState) (offset : Int) (data : Json) :
    Except PyError (Option RecordState × ViewState) :=
  match data.get "records" with
  | none => .error .invalidSugarResponse
  | some records =>
    if ¬ records.isSequence then .error .invalidSugarResponse
    else if records.seqLen > 1 then .error .invalidSugarResponse
    else if records.seqLen = 0 then
      .ok (none, { v with record_cache := cacheInsert v.record_cache offset none })
    else
      match records.seqGet 0 with
      | none => .error .invalidSugarResponse
      | some record_data =>
        match buildRecord v.module_info record_data with
        | .ok rec =>
          .ok (some rec, { v with record_cache := cacheInsert v.record_cache offset (some rec) })
        | .error .typeError => .error .invalidSugarResponse
        | .error e => .error e

/-- `SyncView._get_by_offset`: serve the cache or issue the prepared request
and finalize its response. -/
def _get_by_offset (server : Request → Json) (v : ViewState) (offset : Int) :
    Except PyError (Option RecordState × ViewState) × List Request :=
  match _prepare_get_by_offset v offset with
  | .error e => (.error e, [])
  | .ok (.inl rec) => (.ok (some rec, v), [])
  | .ok (.inr req) => (_finalize_get_by_offset v offset (server req), [req])

/-- `SyncView.get_by_index`: resolve the range, translate the index to an
offset (out of range raises `IndexError`), fetch the record at that offset
(an absent record also raises `IndexError`). -/
def get_by_index (server : Request → Json) (v : ViewState) (index : Int) :
    Except PyError (RecordState × ViewState) × List Request :=
  match _calculate_range server v with
  | (.error e, tr) => (.error e, tr)
  | (.ok (_, v1), tr) =>
    match _index_to_offset v1 index with
    | none => (.error .indexError, tr)
    | some offset =>
      match _get_by_offset server v1 offset with
      | (.error e, tr2) => (.error e, tr ++ tr2)
      | (.ok (none, _), tr2) => (.error .indexError, tr ++ tr2)
      | (.ok (some rec, v2), tr2) => (.ok (rec, v2), tr ++ tr2)

/-- `ValuesFilter("id", key).build_filter()`, the filter produced by
`self._module.id == key`. -/
def idEqualsFilter (key : String) : Json :=
  .obj [("id", .obj [("$equals", .str key)])]

/-- `View._prepare_get_by_id`: reject keys containing a slash or a space
(`"/" in key or " " in key`, expressed over the key's characters),
otherwise clone with the filter replaced by `id == key`. -/
def _prepare_get_by_id (v : ViewState) (key : String) : Except PyError ViewState :=
  if '/' ∈ key.toList ∨ ' ' ∈ key.toList then .error .valueError
  else filtered v [Sum.inl (.basic (idEqualsFilter key))]

/-- `SyncView.get_by_id`: `self._prepare_get_by_id(key)[0]`, with
`IndexError` converted into `KeyError`. -/
def get_by_id (server : Request → Json) (v : ViewState) (key : String) :
    Except PyError RecordState × List Request :=
  match _prepare_get_by_id v key with
  | .error e => (.error e, [])
  | .ok v1 =>
    match get_by_index server v1 0 with
    | (.error .indexError, tr) => (.error .keyError, tr)
    | (.error e, tr) => (.error e, tr)
    | (.ok (rec, _), tr) => (.ok rec, tr)

/-- `SyncView.__len__`: resolve the range and take its length. -/
def view_len (server : Request → Json) (v : ViewState) :
    Except PyError (Nat × ViewState) × List Request :=
  match _calculate_range server v with
  | (.error e, tr) => (.error e, tr)
  | (.ok (r, v1), tr) => (.ok (pyRangeLen r, v1), tr)

/-! ## The bulk batching coordinator (`AsyncClient.bulk` in
`zucker/client/base.py`)

An asynchronous action is modelled as a free monad over one effect, "issue
this request definition and wait for its `(status, contents)` result" —
exactly the suspension point `handle_bulk` introduces.  The coordinator
loop round-robins: each round it gathers the request definitions of all
still-running actions in submission order, issues one physical `/bulk`
call, validates the response shape, and distributes the results back by
key (which is equivalent to position, keys being assigned in submission
order).  The cooperative-scheduling barrier ("every remaining task is
waiting for a request") always holds in this model because a non-complete
action is by construction suspended on a request.  The loop is given
explicit fuel; `none` means the fuel ran out, which the claims never
exercise. -/

inductive Action (ρ : Type) where
  | done (result : ρ)
  | request (definition : Json) (cont : Int × Json → Action ρ)

/-- The per-element validation of a bulk response item: a mapping carrying
a `contents` mapping and an integer `status` (a Python `bool` is an
`int`); anything else is a protocol violation. -/
def bulkItemResult (item : Json) : Except PyError (Int × Json) :=
  match item with
  | .obj fields =>
    match jsonLookup fields "contents", jsonLookup fields "status" with
    | some (.obj c), some (.num s) => .ok (s, .obj c)
    | some (.obj c), some (.bool b) => .ok (if b then 1 else 0, .obj c)
    | _, _ => .error .invalidSugarResponse
  | _ => .error .invalidSugarResponse

/-- The per-item loop distributing a bulk response: validate each element
in order with `bulkItemResult` (the first invalid element aborts the whole
call). -/
def processItems : List Json → Except PyError (List (Int × Json))
  | [] => .ok []
  | item :: rest => do
    let r ← bulkItemResult item
    let rs ← processItems rest
    return r :: rs

/-- The response-validation portion of the coordinator loop: the response
must be a sequence (in Python, a string also is one) of exactly the
batch's length whose elements each pass `bulkItemResult`. -/
def processBulkResponse (batchLen : Nat) (response : Json) : Except PyError (List (Int × Json)) :=
  match response with
  | .arr items =>
    if items.length ≠ batchLen then .error .invalidSugarResponse
    else processItems items
  | .str s =>
    if s.length ≠ batchLen then .error .invalidSugarResponse
    else if batchLen = 0 then .ok []
    else .error .invalidSugarResponse
  | _ => .error .invalidSugarResponse

/-- The request definitions of the still-waiting actions, in submission
order. -/
def pendingDefs {ρ : Type} : List (Action ρ) → List Json
  | [] => []
  | .done _ :: rest => pendingDefs rest
  | .request d _ :: rest => d :: pendingDefs rest

/-- Fan the batch results back out to the waiting actions, in order. -/
def distribute {ρ : Type} : List (Action ρ) → List (Int × Json) → List (Action ρ)
  | [], _ => []
  | .done r :: rest, results => .done r :: distribute rest results
  | .request _ k :: rest, result :: results => k result :: distribute rest results
  | .request d k :: rest, [] => .request d k :: rest

/-- The results of a task list in which every action has completed
(`asyncio.gather` order), or `none` if some action is still waiting. -/
def doneResults {ρ : Type} : List (Action ρ) → Option (List ρ)
  | [] => some []
  | .done r :: rest => (doneResults rest).map (r :: ·)
  | .request _ _ :: _ => none

/-- The coordinator loop of `AsyncClient.bulk`: repeat rounds of
batch-submit-distribute until every action has completed, then return the
results in original action order.  `respond` maps each submitted batch to
the server's raw JSON bulk response. -/
def bulkRun {ρ : Type} (respond : List Json → Json) :
    Nat → List (Action ρ) → Except PyError (Option (List ρ))
  | 0, tasks =>
    match doneResults tasks with
    | some rs => .ok (some rs)
    | none => .ok none
  | fuel + 1, tasks =>
    match doneResults tasks with
    | some rs => .ok (some rs)
    | none => do
      let defs := pendingDefs tasks
      let results ← processBulkResponse defs.length (respond defs)
      bulkRun respond fuel (distribute tasks results)

/-- One suspension step of a single action under a per-request server
oracle. -/
def stepTask {ρ : Type} (serverItem : Json → Json) : Action ρ → Except PyError (Action ρ)
  | .done r => .ok (.done r)
  | .request d k => (bulkItemResult (serverItem d)).map k

/-- Sequential execution of one action against a per-request server
oracle, with fuel (`none` = fuel ran out). -/
def runAction {ρ : Type} (serverItem : Json → Json) : Nat → Action ρ → Option (Except PyError ρ)
  | _, .done r => some (.ok r)
  | 0, .request _ _ => none
  | fuel + 1, .request d k =>
    match bulkItemResult (serverItem d) with
    | .error e => some (.error e)
    | .ok p => runAction serverItem fuel (k p)

/-- `true` on `Except.ok`. -/
def exceptIsOk {ε α : Type} : Except ε α → Bool
  | .ok _ => true
  | .error _ => false

/-- Whether one value is a Python `int` (which includes `bool`). -/
def Json.isPyInt : Json → Bool
  | .num _ => true
  | .bool _ => true
  | _ => false

/-- Whether a value is a JSON object. -/
def Json.isObj : Json → Bool
  | .obj _ => true
  | _ => false

/-- Modelled from the spec's words, for comparison with the code: one bulk
response element must be "a mapping carrying an integer status and a
JSON-object body" (a Python `bool` is an `int`). -/
def specBulkItemOk : Json → Bool
  | .obj fields =>
    (match jsonLookup fields "contents" with
     | some c => c.isObj
     | none => false) &&
    (match jsonLookup fields "status" with
     | some s => s.isPyInt
     | none => false)
  | _ => false

/-- Modelled from the spec's words, for comparison with the code: "The bulk
response must be a sequence of the same length as the submitted batch, each
element containing an integer status and a JSON-object body". -/
def specBulkResponseOk (batchLen : Nat) (response : Json) : Bool :=
  response.isSequence && (response.seqLen == batchLen) &&
  (List.range response.seqLen).all (fun i => specBulkItemOk ((response.seqGet i).getD .null))

/-- A tiny concrete module used by the witnesses below. -/
def demoModule : ModuleInfo := { apiName := "Demo", fieldNames := ["id"] }

/-- A fresh view on `demoModule`, as `Demo.find()` builds it. -/
def demoView : ViewState := View.init demoModule "Demo"

/-! ## Helper lemmas -/

theorem cacheLookup_cacheInsert (c : List (Int × Option RecordState)) (k : Int)
    (r : Option RecordState) : cacheLookup (cacheInsert c k r) k = some r := by
  induction c with
  | nil => simp [cacheInsert, cacheLookup]
  | cons kv rest ih =>
    obtain ⟨k1, r1⟩ := kv
    by_cases h : k1 = k <;> simp [cacheInsert, cacheLookup, h, ih]

/-! ## Claims -/

/-- **C7.** For every key string that contains a slash or a space, looking
up `view[key]` by ID raises a validation error (`ValueError`) synchronously,
before any network request is issued: the request trace is empty. -/
theorem claim_C7_invalid_id_key (server : Request → Json) (v : ViewState) (key : String)
    (h : '/' ∈ key.toList ∨ ' ' ∈ key.toList) :
    get_by_id server v key = (.error .valueError, []) := by
  have h' : '/' ∈ key.data ∨ ' ' ∈ key.data := h
  unfold get_by_id _prepare_get_by_id
  simp [h']

theorem claim_C7_witness :
    get_by_id (fun _ => Json.null) demoView "not-a-valid-id/with-slash" =
      (.error .valueError, []) :=
  claim_C7_invalid_id_key (fun _ => Json.null) demoView "not-a-valid-id/with-slash"
    (Or.inl (by decide))

/-- **C10.** A fetch that returned zero records at an offset stores `None`
in the record cache under that offset, but the cache lookup in
`_prepare_get_by_offset` skips `None` entries; hence a subsequent access to
the same offset builds the fresh single-record request again (and
`_get_by_offset` issues exactly that request) instead of serving the cached
"not found". -/
theorem claim_C10_cached_none_not_served (server : Request → Json) (v : ViewState)
    (offset : Int) (data : Json) (hdata : data.get "records" = some (.arr [])) :
    (∃ v', _finalize_get_by_offset v offset data = .ok (none, v') ∧
       cacheLookup v'.record_cache offset = some none) ∧
    (∀ v2 : ViewState, cacheLookup v2.record_cache offset = some none →
       ∀ qp, query_params v2 = .ok qp →
         _prepare_get_by_offset v2 offset = .ok (.inr (offsetRequest v2 offset qp)) ∧
         _get_by_offset server v2 offset =
           (_finalize_get_by_offset v2 offset (server (offsetRequest v2 offset qp)),
            [offsetRequest v2 offset qp])) := by
  constructor
  · refine ⟨{ v with record_cache := cacheInsert v.record_cache offset none }, ?_, ?_⟩
    · simp [_finalize_get_by_offset, hdata, Json.isSequence, Json.seqLen]
    · exact cacheLookup_cacheInsert v.record_cache offset none
  · intro v2 hcache qp hqp
    have hprep : _prepare_get_by_offset v2 offset = .ok (.inr (offsetRequest v2 offset qp)) := by
      simp [_prepare_get_by_offset, hcache, hqp]
    exact ⟨hprep, by simp [_get_by_offset, hprep]⟩

theorem claim_C10_witness :
    (∃ v', _finalize_get_by_offset demoView 3 (Json.obj [("records", Json.arr [])]) =
        .ok (none, v') ∧ cacheLookup v'.record_cache 3 = some none) ∧
    _prepare_get_by_offset
        { demoView with record_cache := [(3, none)] } 3 =
      .ok (.inr (offsetRequest { demoView with record_cache := [(3, none)] } 3
        [("fields", "id")])) := by
  have h := claim_C10_cached_none_not_served (fun _ => Json.null) demoView 3
    (Json.obj [("records", Json.arr [])]) rfl
  exact ⟨h.1, (h.2 { demoView with record_cache := [(3, none)] } rfl [("fields", "id")] rfl).1⟩

/-- **C5.** `_finalize_get_by_offset` validates a single-record fetch
response: a missing `records` key or a non-sequence value is a protocol
violation (`InvalidSugarResponseError`), as is a `records` sequence of
length greater than 1; an empty sequence caches `None` and returns "not
found" without an error; a singleton sequence whose payload builds a record
stores that record in the offset cache and returns it. -/
theorem claim_C5_single_record_response (v : ViewState) (offset : Int) :
    (∀ data : Json, data.get "records" = none →
       _finalize_get_by_offset v offset data = .error .invalidSugarResponse) ∧
    (∀ data records, data.get "records" = some records → records.isSequence = false →
       _finalize_get_by_offset v offset data = .error .invalidSugarResponse) ∧
    (∀ data records, data.get "records" = some records → 1 < records.seqLen →
       _finalize_get_by_offset v offset data = .error .invalidSugarResponse) ∧
    (∀ data : Json, data.get "records" = some (.arr []) →
       _finalize_get_by_offset v offset data =
         .ok (none, { v with record_cache := cacheInsert v.record_cache offset none })) ∧
    (∀ data payload rec, data.get "records" = some (.arr [payload]) →
       buildRecord v.module_info payload = .ok rec →
       _finalize_get_by_offset v offset data =
         .ok (some rec, { v with record_cache := cacheInsert v.record_cache offset (some rec) })) := by
  refine ⟨?_, ?_, ?_, ?_, ?_⟩
  · intro data h
    simp [_finalize_get_by_offset, h]
  · intro data records h hseq
    simp [_finalize_get_by_offset, h, hseq]
  · intro data records h hlen
    have hseq : records.isSequence = true ∨ records.isSequence = false := by
      cases records.isSequence <;> simp
    rcases hseq with hs | hs <;>
      simp [_finalize_get_by_offset, h, hs, hlen, Nat.not_eq_zero_of_lt hlen]
  · intro data h
    simp [_finalize_get_by_offset, h, Json.isSequence, Json.seqLen]
  · intro data payload rec h hb
    simp [_finalize_get_by_offset, h, Json.isSequence, Json.seqLen, Json.seqGet, hb]

theorem claim_C5_witness :
    _finalize_get_by_offset demoView 0
        (Json.obj [("records", Json.arr [Json.obj [("id", Json.str "x")]])]) =
      .ok (some { original_data := [("id", Json.str "x")], updated_data := [] },
        { demoView with record_cache := [(0,
            some { original_data := [("id", Json.str "x")], updated_data := [] })] }) ∧
    _finalize_get_by_offset demoView 0 (Json.obj [("answer", Json.num 42)]) =
      .error .invalidSugarResponse :=
  ⟨(claim_C5_single_record_response demoView 0).2.2.2.2
      (Json.obj [("records", Json.arr [Json.obj [("id", Json.str "x")]])])
      (Json.obj [("id", Json.str "x")]) _ rfl (by rfl),
   (claim_C5_single_record_response demoView 0).1 (Json.obj [("answer", Json.num 42)]) rfl⟩

/-- **C4, counterexample.** The claim says a slice with negative bounds (or a
non-unit step) "resolves eagerly (obtains the total collection size at
slicing time)".  On the code, slicing `view[-4:]` performs no resolution at
all: the total size stays unknown, the window stays unresolved, and the
slice is merely queued as pending. -/
theorem claim_C4_counterexample :
    (getitem_slice demoView { start := some (-4), stop := none, step := none }).size = none ∧
    (getitem_slice demoView { start := some (-4), stop := none, step := none }).range = none ∧
    (getitem_slice demoView { start := some (-4), stop := none, step := none }).pending_slices =
      [{ start := some (-4), stop := none, step := none }] :=
  ⟨rfl, rfl, rfl⟩

/-- **C4, amended.** Taking `view[a:b:step]` returns a new View without
issuing any network request for *every* slice — negative bounds and
non-unit steps included — by queueing the slice as pending; the total
collection size is obtained only when the window is resolved
(`_calculate_range`), which issues the one `/count` request exactly when
neither the range nor the size is known yet and no request otherwise. -/
theorem claim_C4_slicing_is_always_lazy :
    (∀ (v : ViewState) (s : PySlice),
       (getitem_slice v s).size = v.size ∧
       (getitem_slice v s).range = v.range ∧
       (getitem_slice v s).record_cache = v.record_cache ∧
       (getitem_slice v s).filter = v.filter ∧
       (getitem_slice v s).pending_slices = v.pending_slices ++ [s]) ∧
    (∀ (server : Request → Json) (v : ViewState) (r : PyRange),
       v.range = some r → (_calculate_range server v).2 = []) ∧
    (∀ (server : Request → Json) (v : ViewState) (n : Int),
       v.range = none → v.size = some n → (_calculate_range server v).2 = []) ∧
    (∀ (server : Request → Json) (v : ViewState) (qp : List (String × String)),
       v.range = none → v.size = none → query_params v = .ok qp →
       (_calculate_range server v).2 = [countRequest v qp]) := by
  refine ⟨?_, ?_, ?_, ?_⟩
  · intro v s
    simp [getitem_slice, cloneWith]
  · intro server v r h
    simp only [_calculate_range, h]
    split <;> rfl
  · intro server v n hr hs
    simp only [_calculate_range, hr, hs]
    split <;> rfl
  · intro server v qp hr hs hqp
    simp only [_calculate_range, hr, hs, _fetch_size, hqp]
    rcases hresp : (server (countRequest v qp)).get "record_count" with _ | resp
    · simp [hresp]
    · cases resp <;> simp [hresp] <;> split <;> rfl

theorem claim_C4_witness :
    (getitem_slice demoView { start := none, stop := none, step := some 2 }).size = none ∧
    (_calculate_range (fun _ => Json.null)
        { demoView with range := some ⟨0, 5, 1⟩ }).2 = [] ∧
    (_calculate_range (fun _ => Json.obj [("record_count", Json.num 13)]) demoView).2 =
      [countRequest demoView [("fields", "id")]] := by
  refine ⟨(claim_C4_slicing_is_always_lazy.1 demoView _).1, ?_, ?_⟩
  · exact claim_C4_slicing_is_always_lazy.2.1 _ _ ⟨0, 5, 1⟩ rfl
  · exact claim_C4_slicing_is_always_lazy.2.2.2 _ demoView [("fields", "id")] rfl rfl rfl

/-- **C3, counterexample.** The claim says cloning with a changed filter
invalidates the resolved index window (range) along with the cache.  On the
code, `_clone` copies `self._range` into the new view *before* the body
runs and never resets it: a changed-filter clone of a resolved view keeps
the stale resolved range. -/
theorem claim_C3_counterexample :
    (clone_with_filter
        { demoView with range := some ⟨0, 5, 1⟩, size := some 5 }
        (some (.basic (Json.obj [("a", Json.str "b")])))).range = some ⟨0, 5, 1⟩ ∧
    ¬ ((clone_with_filter
        { demoView with range := some ⟨0, 5, 1⟩, size := some 5 }
        (some (.basic (Json.obj [("a", Json.str "b")])))).range = none) ∧
    some (GenericFilterV.basic (Json.obj [("a", Json.str "b")])) ≠
      ({ demoView with range := some ⟨0, 5, 1⟩, size := some 5 } : ViewState).filter := by
  refine ⟨rfl, by decide, by decide⟩

/-- **C3, amended.** Cloning with an unchanged filter shares the original's
record cache and cached total size (a same-filter clone is the identical
view state; a slice clone keeps cache and size); cloning with a changed
filter starts from a fresh empty record cache and an unknown total size but
*retains* the already-resolved range; and once a view's window is resolved,
no operation re-queries the total count (`_calculate_range` issues no
request when the range is present — which, because the resolved range
survives a filter change, holds for changed-filter clones too). -/
theorem claim_C3_clone_cache_semantics :
    (∀ v : ViewState, clone_with_filter v v.filter = v) ∧
    (∀ (v : ViewState) (s : PySlice),
       (getitem_slice v s).record_cache = v.record_cache ∧
       (getitem_slice v s).size = v.size) ∧
    (∀ (v : ViewState) (f : Option GenericFilterV), f ≠ v.filter →
       (clone_with_filter v f).record_cache = [] ∧
       (clone_with_filter v f).size = none ∧
       (clone_with_filter v f).range = v.range ∧
       (clone_with_filter v f).filter = f ∧
       (clone_with_filter v f).pending_slices = v.pending_slices) ∧
    (∀ (server : Request → Json) (v : ViewState) (r : PyRange),
       v.range = some r → (_calculate_range server v).2 = []) := by
  refine ⟨?_, ?_, ?_, ?_⟩
  · intro v
    cases v
    simp [clone_with_filter, cloneWith]
  · intro v s
    exact ⟨by simp [getitem_slice, cloneWith], by simp [getitem_slice, cloneWith]⟩
  · intro v f h
    simp [clone_with_filter, cloneWith, h]
  · intro server v r h
    simp only [_calculate_range, h]
    split <;> rfl

theorem claim_C3_witness :
    clone_with_filter demoView demoView.filter = demoView ∧
    (clone_with_filter
        { demoView with range := some ⟨0, 5, 1⟩, size := some 5 }
        (some (.basic (Json.obj [("a", Json.str "b")])))).record_cache = [] ∧
    (_calculate_range (fun _ => Json.null)
        { demoView with range := some ⟨0, 5, 1⟩ }).2 = [] := by
  refine ⟨claim_C3_clone_cache_semantics.1 demoView, ?_, ?_⟩
  · exact (claim_C3_clone_cache_semantics.2.2.1
      { demoView with range := some ⟨0, 5, 1⟩, size := some 5 }
      (some (.basic (Json.obj [("a", Json.str "b")]))) (by simp [demoView, View.init])).1
  · exact claim_C3_clone_cache_semantics.2.2.2 _ _ ⟨0, 5, 1⟩ rfl

theorem mem_dedupKeys (k : String) (l : List String) : k ∈ dedupKeys l ↔ k ∈ l := by
  induction l with
  | nil => simp [dedupKeys]
  | cons x rest ih =>
    by_cases hk : k = x
    · subst hk
      simp [dedupKeys]
    · simp [dedupKeys, hk, List.mem_filter, ih]

theorem jsonLookup_isSome_iff (l : List (String × Json)) (k : String) :
    (∃ v, jsonLookup l k = some v) ↔ k ∈ l.map Prod.fst := by
  induction l with
  | nil => simp [jsonLookup]
  | cons kv rest ih =>
    obtain ⟨k1, v1⟩ := kv
    by_cases h : k1 = k
    · subst h
      simp [jsonLookup]
    · simp [jsonLookup, h, ih, Ne.symm h]

theorem recordGetItem_mem (r : RecordState) (k : String) :
    (∃ v, recordGetItem r k = some v) ↔
      (k ∈ r.updated_data.map Prod.fst ∨ k ∈ r.original_data.map Prod.fst) := by
  rw [← jsonLookup_isSome_iff, ← jsonLookup_isSome_iff]
  unfold recordGetItem
  rcases h : jsonLookup r.updated_data k with _ | v <;> simp [h]

/-- **C8.** `_prepare_save` on a record without an ID prepares a create
call — POST to the module endpoint with a body containing *all* data keys
(updated merged over original) — while on a record that has an ID it
prepares an update call — PUT to `<module>/<id>` with a body containing
*only* the updated keys.  In both cases every body entry holds the
record's merged value for that key. -/
theorem claim_C8_prepare_save (m : ModuleInfo) (r : RecordState) :
    (recordGetItem r "id" = none →
     (∀ k, (k ∈ r.updated_data.map Prod.fst ∨ k ∈ r.original_data.map Prod.fst) →
        startsWithUnderscore k = false) →
     ∃ data, prepare_save m r = .ok ("post", m.apiName, data) ∧
       (∀ k, k ∈ data.map Prod.fst ↔
          (k ∈ r.updated_data.map Prod.fst ∨ k ∈ r.original_data.map Prod.fst)) ∧
       (∀ k val, (k, val) ∈ data → recordGetItem r k = some val)) ∧
    (∀ ids, recordGetItem r "id" = some (.str ids) →
     (∀ k, k ∈ r.updated_data.map Prod.fst → startsWithUnderscore k = false) →
     "id" ∉ r.updated_data.map Prod.fst →
     ∃ data, prepare_save m r = .ok ("put", m.apiName ++ "/" ++ ids, data) ∧
       (∀ k, k ∈ data.map Prod.fst ↔ k ∈ r.updated_data.map Prod.fst) ∧
       (∀ k val, (k, val) ∈ data → recordGetItem r k = some val)) := by
  constructor
  · intro hid hu
    have hany : (dedupKeys (r.updated_data.map Prod.fst ++ r.original_data.map Prod.fst)).any
        (fun k => startsWithUnderscore k) = false := by
      rw [List.any_eq_false]
      intro k hk
      rw [mem_dedupKeys, List.mem_append] at hk
      simp [hu k hk]
    refine ⟨(dedupKeys (r.updated_data.map Prod.fst ++ r.original_data.map Prod.fst)).map
        (fun k => (k, (recordGetItem r k).getD .null)), ?_, ?_, ?_⟩
    · simp only [prepare_save, hid, hany]
      rfl
    · intro k
      simp only [List.map_map]
      simp [mem_dedupKeys]
    · intro k val hkv
      simp only [List.mem_map] at hkv
      obtain ⟨k1, hk1, heq⟩ := hkv
      injection heq with h1 h2
      subst h1
      subst h2
      rw [mem_dedupKeys, List.mem_append] at hk1
      obtain ⟨v, hv⟩ := (recordGetItem_mem r k1).2 hk1
      simp [hv]
  · intro ids hid hu hidk
    have hany : (dedupKeys (r.updated_data.map Prod.fst)).any
        (fun k => startsWithUnderscore k) = false := by
      rw [List.any_eq_false]
      intro k hk
      rw [mem_dedupKeys] at hk
      simp [hu k hk]
    have hidmem : "id" ∉ dedupKeys (r.updated_data.map Prod.fst) := by
      rw [mem_dedupKeys]
      exact hidk
    refine ⟨(dedupKeys (r.updated_data.map Prod.fst)).map
        (fun k => (k, (recordGetItem r k).getD .null)), ?_, ?_, ?_⟩
    · simp only [prepare_save, hid, hany, if_neg hidmem]
      rfl
    · intro k
      simp only [List.map_map]
      simp [mem_dedupKeys]
    · intro k val hkv
      simp only [List.mem_map] at hkv
      obtain ⟨k1, hk1, heq⟩ := hkv
      injection heq with h1 h2
      subst h1
      subst h2
      rw [mem_dedupKeys] at hk1
      obtain ⟨v, hv⟩ := (recordGetItem_mem r k1).2 (Or.inl hk1)
      simp [hv]

theorem claim_C8_witness :
    (∃ data, prepare_save demoModule
        { original_data := [("name", Json.str "n")], updated_data := [("color", Json.str "c")] } =
        .ok ("post", "Demo", data) ∧
      (∀ k, k ∈ data.map Prod.fst ↔
         (k ∈ [("color", Json.str "c")].map Prod.fst ∨ k ∈ [("name", Json.str "n")].map Prod.fst)) ∧
      (∀ k val, (k, val) ∈ data →
         recordGetItem { original_data := [("name", Json.str "n")],
                         updated_data := [("color", Json.str "c")] } k = some val)) ∧
    (∃ data, prepare_save demoModule
        { original_data := [("id", Json.str "r1"), ("name", Json.str "n")],
          updated_data := [("color", Json.str "c")] } =
        .ok ("put", "Demo" ++ "/" ++ "r1", data) ∧
      (∀ k, k ∈ data.map Prod.fst ↔ k ∈ [("color", Json.str "c")].map Prod.fst) ∧
      (∀ k val, (k, val) ∈ data →
         recordGetItem { original_data := [("id", Json.str "r1"), ("name", Json.str "n")],
                         updated_data := [("color", Json.str "c")] } k = some val)) := by
  constructor
  · exact (claim_C8_prepare_save demoModule
      { original_data := [("name", Json.str "n")], updated_data := [("color", Json.str "c")] }).1
      rfl (by intro k hk; rcases hk with hk | hk <;> simp only [List.map, List.mem_singleton] at hk <;>
            subst hk <;> decide)
  · exact (claim_C8_prepare_save demoModule
      { original_data := [("id", Json.str "r1"), ("name", Json.str "n")],
        updated_data := [("color", Json.str "c")] }).2 "r1"
      rfl (by intro k hk; simp only [List.map, List.mem_singleton] at hk; subst hk; decide)
      (by decide)

theorem filterSetLoop_raws (ps : List Json) (comb : Combinator) (acc : List Json)
    (rest : List (Option FilterPart)) :
    filterSetLoop comb acc (ps.map (fun p => some (FilterPart.raw p)) ++ rest) =
      match appendRawParts acc ps with
      | .ok acc2 => filterSetLoop comb acc2 rest
      | .error e => .error e := by
  induction ps generalizing acc with
  | nil => simp [appendRawParts]
  | cons p ps ih =>
    cases p <;> simp [filterSetLoop, appendRawParts, ih]

/-- **C9.** In `FilterSet.__init__`, a nested sub-filter-set with the same
combinator as the (current) parent, or with at most one part, is absorbed:
construction continues exactly as if the sub-filter's parts had been given
directly (provided the sub-filter is not the sole part, which instead
adopts its combinator).  In particular `AND(A, OR(B))` constructs the same
filter set as `AND(A, B)` — namely `(AND, [A, B])` — and hence renders the
same filter. -/
theorem claim_C9_filterset_flattening :
    (∀ (comb : Combinator) (acc : List Json) (c2 : Combinator) (ps : List Json)
       (rest : List (Option FilterPart)),
       ¬ (acc.isEmpty = true ∧ rest.all Option.isNone = true) →
       (c2 = comb ∨ ps.length ≤ 1) →
       filterSetLoop comb acc (some (.sub c2 ps) :: rest) =
         filterSetLoop comb acc (ps.map (fun p => some (FilterPart.raw p)) ++ rest)) ∧
    (∀ (fa fb : List (String × Json)) (c : Combinator) (ps : List Json),
       mkFilterSet .or [some (.raw (.obj fb))] = .ok (c, ps) →
       mkFilterSet .and [some (.raw (.obj fa)), some (.sub c ps)] =
         mkFilterSet .and [some (.raw (.obj fa)), some (.raw (.obj fb))] ∧
       mkFilterSet .and [some (.raw (.obj fa)), some (.sub c ps)] =
         .ok (.and, [.obj fa, .obj fb]) ∧
       (mkFilterSet .and [some (.raw (.obj fa)), some (.sub c ps)]).map
           (fun st => buildFilterSet st.1 st.2) =
         (mkFilterSet .and [some (.raw (.obj fa)), some (.raw (.obj fb))]).map
           (fun st => buildFilterSet st.1 st.2)) := by
  constructor
  · intro comb acc c2 ps rest hno hcond
    have hmo : (acc.isEmpty && rest.all Option.isNone) = false := by
      by_contra hne
      rw [Bool.not_eq_false, Bool.and_eq_true] at hne
      exact hno hne
    rw [filterSetLoop_raws]
    simp only [filterSetLoop, hmo]
    rw [if_pos]
    · rfl
    · rcases hcond with h | h
      · exact Or.inl h
      · exact Or.inr (Or.inl (by omega))
  · intro fa fb c ps h
    have h' : Except.ok (ε := PyError) (Combinator.or, [Json.obj fb]) = .ok (c, ps) := h
    injection h' with hpair
    cases hpair
    exact ⟨rfl, rfl, rfl⟩

theorem claim_C9_witness :
    mkFilterSet .and
        [some (.raw (.obj [("a", Json.str "1")])), some (.sub .or [Json.obj [("b", Json.str "2")]])] =
      mkFilterSet .and
        [some (.raw (.obj [("a", Json.str "1")])), some (.raw (.obj [("b", Json.str "2")]))] ∧
    mkFilterSet .and
        [some (.raw (.obj [("a", Json.str "1")])), some (.sub .or [Json.obj [("b", Json.str "2")]])] =
      .ok (.and, [.obj [("a", Json.str "1")], .obj [("b", Json.str "2")]]) := by
  have h := (claim_C9_filterset_flattening.2 [("a", Json.str "1")] [("b", Json.str "2")]
    .or [Json.obj [("b", Json.str "2")]] rfl)
  exact ⟨h.1, h.2.1⟩

theorem pyRangeGet_none {r : PyRange} {n : Nat} (h : pyRangeLen r ≤ n) :
    pyRangeGet r n = none := by
  simp only [pyRangeGet, if_neg (not_lt.2 h)]

/-- **C1.** For every resolved view (range computed, no pending slices):
for every integer index `i` with `0 ≤ i` that lies inside the window,
`get_by_index` fetches at the remote offset given by the resolved window's
`i`-th element and returns the record the server provides there (when the
response carries exactly one record); for every `i ≥ len(view)` and every
negative `i`, `get_by_index` raises `IndexError` (without any fetch). -/
theorem claim_C1_get_by_index (server : Request → Json) (v : ViewState) (r : PyRange)
    (hr : v.range = some r) (hp : v.pending_slices = []) :
    (∀ (i : Int) (offset : Int) (qp : List (String × String)) (rec : RecordState)
       (v2 : ViewState),
       0 ≤ i →
       pyRangeGet r i.toNat = some offset →
       cacheLookup v.record_cache offset = none →
       query_params v = .ok qp →
       _finalize_get_by_offset v offset (server (offsetRequest v offset qp)) =
         .ok (some rec, v2) →
       get_by_index server v i = (.ok (rec, v2), [offsetRequest v offset qp])) ∧
    (∀ i : Int, (i < 0 ∨ (pyRangeLen r : Int) ≤ i) →
       get_by_index server v i = (.error .indexError, [])) := by
  obtain ⟨mi, be, fl, rg, psl, sz, rc⟩ := v
  simp only at hr hp
  subst hr
  subst hp
  have hcalc : _calculate_range server ⟨mi, be, fl, some r, [], sz, rc⟩ =
      (.ok (r, ⟨mi, be, fl, some r, [], sz, rc⟩), []) := by
    simp [_calculate_range, applySlices]
  constructor
  · intro i offset qp rec v2 h0 hget hcache hqp hfin
    have hoff : _index_to_offset ⟨mi, be, fl, some r, [], sz, rc⟩ i = some offset := by
      simp only [_index_to_offset, if_neg (not_lt.2 h0)]
      exact hget
    have hprep : _prepare_get_by_offset ⟨mi, be, fl, some r, [], sz, rc⟩ offset =
        .ok (.inr (offsetRequest ⟨mi, be, fl, some r, [], sz, rc⟩ offset qp)) := by
      simp only [_prepare_get_by_offset] at *
      simp [hcache, hqp]
    simp only [get_by_index, hcalc, hoff, _get_by_offset, hprep, hfin]
    rfl
  · intro i hi
    have hoff : _index_to_offset ⟨mi, be, fl, some r, [], sz, rc⟩ i = none := by
      rcases hi with hi | hi
      · simp only [_index_to_offset, if_pos hi]
      · have h0 : ¬ i < 0 := by omega
        simp only [_index_to_offset, if_neg h0]
        exact pyRangeGet_none (by omega)
    simp only [get_by_index, hcalc, hoff]

theorem claim_C1_witness :
    get_by_index
        (fun _ => Json.obj [("records", Json.arr [Json.obj [("id", Json.str "one")]])])
        { demoView with range := some ⟨0, 3, 1⟩, size := some 3 } 1 =
      (.ok ({ original_data := [("id", Json.str "one")], updated_data := [] },
            { demoView with
              range := some ⟨0, 3, 1⟩
              size := some 3
              record_cache := [(1, some { original_data := [("id", Json.str "one")],
                                          updated_data := [] })] }),
       [offsetRequest { demoView with range := some ⟨0, 3, 1⟩, size := some 3 } 1
          [("fields", "id")]]) ∧
    get_by_index
        (fun _ => Json.obj [("records", Json.arr [Json.obj [("id", Json.str "one")]])])
        { demoView with range := some ⟨0, 3, 1⟩, size := some 3 } (-1) =
      (.error .indexError, []) ∧
    get_by_index
        (fun _ => Json.obj [("records", Json.arr [Json.obj [("id", Json.str "one")]])])
        { demoView with range := some ⟨0, 3, 1⟩, size := some 3 } 5 =
      (.error .indexError, []) := by
  have h := claim_C1_get_by_index
    (fun _ => Json.obj [("records", Json.arr [Json.obj [("id", Json.str "one")]])])
    { demoView with range := some ⟨0, 3, 1⟩, size := some 3 } ⟨0, 3, 1⟩ rfl rfl
  refine ⟨?_, h.2 (-1) (Or.inl (by decide)), h.2 5 (Or.inr (by decide))⟩
  exact h.1 1 1 [("fields", "id")] _ _ (by decide) (by decide) rfl rfl (by rfl)

theorem pyRangeLen_zero_one (n : Int) : pyRangeLen ⟨0, n, 1⟩ = n.toNat := by
  simp only [pyRangeLen, Int.fdiv_one]
  norm_num
  split_ifs <;> omega

theorem pyRangeToList_eq_nil {r : PyRange} (h : pyRangeLen r = 0) : pyRangeToList r = [] := by
  simp [pyRangeToList, h]

theorem rangeSlice_start_after_stop (n : Int) (r : PyRange)
    (h : rangeSlice ⟨0, n, 1⟩ ⟨some 5, some 2, none⟩ = .ok r) :
    pyRangeToList r = [] := by
  have hb : rangeSlice ⟨0, n, 1⟩ ⟨some 5, some 2, none⟩ =
      .ok ⟨0 + sliceAdjustBound (pyRangeLen ⟨0, n, 1⟩) 1 5 * 1,
           0 + sliceAdjustBound (pyRangeLen ⟨0, n, 1⟩) 1 2 * 1, 1 * 1⟩ := rfl
  rw [hb] at h
  injection h with h
  subst h
  apply pyRangeToList_eq_nil
  simp only [pyRangeLen, pyRangeLen_zero_one, sliceAdjustBound, Int.fdiv_one]
  norm_num
  split_ifs <;> omega

theorem rangeSlice_neg_step_empty (n : Int) (r : PyRange)
    (h : rangeSlice ⟨0, n, 1⟩ ⟨some 2, some 5, some (-1)⟩ = .ok r) :
    pyRangeToList r = [] := by
  have hb : rangeSlice ⟨0, n, 1⟩ ⟨some 2, some 5, some (-1)⟩ =
      .ok ⟨0 + sliceAdjustBound (pyRangeLen ⟨0, n, 1⟩) (-1) 2 * 1,
           0 + sliceAdjustBound (pyRangeLen ⟨0, n, 1⟩) (-1) 5 * 1, 1 * (-1)⟩ := rfl
  rw [hb] at h
  injection h with h
  subst h
  apply pyRangeToList_eq_nil
  simp only [pyRangeLen, pyRangeLen_zero_one, sliceAdjustBound, Int.fdiv_one]
  norm_num
  split_ifs <;> omega

theorem range_reverse_map (L : Nat) :
    (List.range L).map (fun (i : Nat) => 0 + ((L : Int) - 1) * 1 + 1 * (-1) * (i : Int)) =
      ((List.range L).map (fun (i : Nat) => (0 : Int) + 1 * (i : Int))).reverse := by
  apply List.ext_getElem
  · simp
  · intro i h1 h2
    simp only [List.length_map, List.length_range] at h1 h2
    rw [List.getElem_map, List.getElem_reverse, List.getElem_map, List.getElem_range]
    simp only [List.length_map, List.length_range]
    rw [List.getElem_range]
    omega

theorem rangeSlice_reverse_toList (n : Int) (r : PyRange)
    (h : rangeSlice ⟨0, n, 1⟩ ⟨none, none, some (-1)⟩ = .ok r) :
    pyRangeToList r = (pyRangeToList ⟨0, n, 1⟩).reverse := by
  have hb : rangeSlice ⟨0, n, 1⟩ ⟨none, none, some (-1)⟩ =
      .ok ⟨0 + ((pyRangeLen ⟨0, n, 1⟩ : Int) - 1) * 1, 0 + (-1) * 1, 1 * (-1)⟩ := rfl
  rw [hb] at h
  injection h with h
  subst h
  have hlen : pyRangeLen ⟨0 + ((pyRangeLen ⟨0, n, 1⟩ : Int) - 1) * 1, 0 + (-1) * 1, 1 * (-1)⟩ =
      pyRangeLen ⟨0, n, 1⟩ := by
    simp only [pyRangeLen]
    norm_num [Int.fdiv_one]
    split_ifs <;> omega
  simp only [pyRangeToList, hlen]
  generalize pyRangeLen ⟨0, n, 1⟩ = L
  exact range_reverse_map L

/-- The shared part of resolving a size-known view: `_calculate_range`
builds `range(0, n)` without a request and then applies the pending
slices. -/
theorem calculate_range_of_size_known (server : Request → Json) (v : ViewState) (n : Int)
    (hr : v.range = none) (hs : v.size = some n) :
    (_calculate_range server v).1.map Prod.fst = applySlices ⟨0, n, 1⟩ v.pending_slices ∧
    (_calculate_range server v).2 = [] := by
  simp only [_calculate_range, hr, hs]
  cases h : applySlices ⟨0, n, 1⟩ v.pending_slices <;> simp [h, Except.map]

theorem applySlices_cons (r : PyRange) (s : PySlice) (rest : List PySlice) :
    applySlices r (s :: rest) = rangeSlice r s >>= fun r1 => applySlices r1 rest := rfl

theorem applySlices_single (r : PyRange) (s : PySlice) :
    applySlices r [s] = rangeSlice r s := by
  rw [applySlices_cons]
  cases h : rangeSlice r s with
  | error e => rfl
  | ok r1 => rfl

theorem applySlices_pair (r : PyRange) (s1 s2 : PySlice) :
    applySlices r [s1, s2] = (rangeSlice r s1 >>= fun r1 => rangeSlice r1 s2) := by
  rw [applySlices_cons]
  cases h1 : rangeSlice r s1 with
  | error e => rfl
  | ok r1 =>
    show applySlices r1 [s2] = rangeSlice r1 s2
    exact applySlices_single r1 s2

/-- **C2.** For a view whose total size `n` is already known, pending
slices compose by Python range slicing over the initial window
`range(0, n)`: chained slices `view[s1][s2]` resolve to exactly
`range(0, n)[s1][s2]` applied in request order (and without any request);
`view[5:2]` resolves to an empty window; `view[2:5:-1]` resolves to an
empty window; `view[::-1]` resolves to the fully reversed window. -/
theorem claim_C2_slice_composition (server : Request → Json) (v : ViewState) (n : Int)
    (hr : v.range = none) (hs : v.size = some n) (hp : v.pending_slices = []) :
    (∀ s1 s2 : PySlice,
       (_calculate_range server (getitem_slice (getitem_slice v s1) s2)).1.map Prod.fst =
         (rangeSlice ⟨0, n, 1⟩ s1 >>= fun r1 => rangeSlice r1 s2) ∧
       (_calculate_range server (getitem_slice (getitem_slice v s1) s2)).2 = []) ∧
    (∀ r, (_calculate_range server (getitem_slice v ⟨some 5, some 2, none⟩)).1.map Prod.fst =
         .ok r → pyRangeToList r = []) ∧
    (∀ r, (_calculate_range server (getitem_slice v ⟨some 2, some 5, some (-1)⟩)).1.map Prod.fst =
         .ok r → pyRangeToList r = []) ∧
    (∀ r, (_calculate_range server (getitem_slice v ⟨none, none, some (-1)⟩)).1.map Prod.fst =
         .ok r → pyRangeToList r = (pyRangeToList ⟨0, n, 1⟩).reverse) := by
  have hone : ∀ s : PySlice,
      (getitem_slice v s).range = none ∧ (getitem_slice v s).size = some n ∧
      (getitem_slice v s).pending_slices = [s] := by
    intro s
    refine ⟨?_, ?_, ?_⟩ <;> simp [getitem_slice, cloneWith, hr, hs, hp]
  have hsingle : ∀ s : PySlice,
      (_calculate_range server (getitem_slice v s)).1.map Prod.fst =
        rangeSlice ⟨0, n, 1⟩ s := by
    intro s
    have h := calculate_range_of_size_known server (getitem_slice v s) n
      (hone s).1 (hone s).2.1
    rw [h.1, (hone s).2.2]
    exact applySlices_single ⟨0, n, 1⟩ s
  refine ⟨?_, ?_, ?_, ?_⟩
  · intro s1 s2
    have htwo : (getitem_slice (getitem_slice v s1) s2).range = none ∧
        (getitem_slice (getitem_slice v s1) s2).size = some n ∧
        (getitem_slice (getitem_slice v s1) s2).pending_slices = [s1, s2] := by
      refine ⟨?_, ?_, ?_⟩ <;>
        simp [getitem_slice, cloneWith, (hone s1).1, (hone s1).2.1, (hone s1).2.2, hr, hs, hp]
    have h := calculate_range_of_size_known server (getitem_slice (getitem_slice v s1) s2) n
      htwo.1 htwo.2.1
    rw [h.1, htwo.2.2] at *
    exact ⟨applySlices_pair ⟨0, n, 1⟩ s1 s2, h.2⟩
  · intro r hres
    exact rangeSlice_start_after_stop n r ((hsingle ⟨some 5, some 2, none⟩).symm.trans hres)
  · intro r hres
    exact rangeSlice_neg_step_empty n r ((hsingle ⟨some 2, some 5, some (-1)⟩).symm.trans hres)
  · intro r hres
    exact rangeSlice_reverse_toList n r ((hsingle ⟨none, none, some (-1)⟩).symm.trans hres)

theorem claim_C2_witness :
    ((_calculate_range (fun _ => Json.null)
        (getitem_slice (getitem_slice { demoView with size := some 13 }
          ⟨some 7, some 1, some (-1)⟩) ⟨some 1, none, none⟩)).1.map Prod.fst =
      (rangeSlice ⟨0, 13, 1⟩ ⟨some 7, some 1, some (-1)⟩ >>= fun r1 =>
        rangeSlice r1 ⟨some 1, none, none⟩)) ∧
    (∀ r, (_calculate_range (fun _ => Json.null)
        (getitem_slice { demoView with size := some 13 } ⟨none, none, some (-1)⟩)).1.map
          Prod.fst = .ok r →
      pyRangeToList r = (pyRangeToList ⟨0, 13, 1⟩).reverse) := by
  have h := claim_C2_slice_composition (fun _ => Json.null)
    { demoView with size := some 13 } 13 rfl rfl rfl
  exact ⟨(h.1 ⟨some 7, some 1, some (-1)⟩ ⟨some 1, none, none⟩).1, h.2.2.2⟩

theorem bulkItemResult_error : ∀ (item : Json) (e : PyError),
    bulkItemResult item = .error e → e = .invalidSugarResponse := by
  intro item e h
  cases item <;> simp only [bulkItemResult] at h
  case obj fields =>
    split at h
    · exact nomatch h
    · exact nomatch h
    · injection h with h
      exact h.symm
  all_goals
    injection h with h
    exact h.symm

theorem processItems_error : ∀ (items : List Json) (e : PyError),
    processItems items = .error e → e = .invalidSugarResponse := by
  intro items
  induction items with
  | nil =>
    intro e h
    exact nomatch h
  | cons x xs ih =>
    intro e h
    rw [show processItems (x :: xs) =
          (bulkItemResult x >>= fun r => processItems xs >>= fun rs => pure (r :: rs))
        from rfl] at h
    cases hx : bulkItemResult x with
    | error e1 =>
      rw [hx] at h
      have h1 : Except.error (α := List (Int × Json)) e1 = .error e := h
      injection h1 with h1
      exact h1 ▸ bulkItemResult_error x e1 hx
    | ok p =>
      rw [hx] at h
      cases hxs : processItems xs with
      | error e2 =>
        rw [hxs] at h
        have h2 : Except.error (α := List (Int × Json)) e2 = .error e := h
        injection h2 with h2
        exact h2 ▸ ih e2 hxs
      | ok ps =>
        rw [hxs] at h
        exact nomatch h

theorem exceptIsOk_bulkItemResult (item : Json) :
    exceptIsOk (bulkItemResult item) = specBulkItemOk item := by
  cases item <;> try rfl
  case obj fields =>
    simp only [bulkItemResult, specBulkItemOk]
    rcases hc : jsonLookup fields "contents" with _ | c <;>
      rcases hs : jsonLookup fields "status" with _ | s
    · rfl
    · cases s <;> rfl
    · cases c <;> rfl
    · cases c <;> cases s <;> rfl

theorem processItems_isOk (items : List Json) :
    exceptIsOk (processItems items) =
      items.all (fun item => exceptIsOk (bulkItemResult item)) := by
  induction items with
  | nil => rfl
  | cons x xs ih =>
    rw [show processItems (x :: xs) =
          (bulkItemResult x >>= fun r => processItems xs >>= fun rs => pure (r :: rs))
        from rfl, List.all_cons]
    cases hx : bulkItemResult x with
    | error e => rfl
    | ok p =>
      cases hxs : processItems xs with
      | error e =>
        have h2 := ih
        rw [hxs] at h2
        exact h2
      | ok ps =>
        have h2 := ih
        rw [hxs] at h2
        exact h2

theorem all_range_getD (items : List Json) (f : Json → Bool) :
    (List.range items.length).all (fun i => f ((items.get? i).getD .null)) = items.all f := by
  rw [Bool.eq_iff_iff]
  simp only [List.all_eq_true, List.mem_range]
  constructor
  · intro h x hx
    obtain ⟨⟨i, hi⟩, rfl⟩ := List.mem_iff_get.mp hx
    have := h i hi
    rwa [List.get?_eq_get hi, Option.getD_some] at this
  · intro h i hi
    rw [List.get?_eq_get hi, Option.getD_some]
    exact h _ (List.get_mem items i hi)

theorem processBulkResponse_isOk (n : Nat) (resp : Json) :
    exceptIsOk (processBulkResponse n resp) = specBulkResponseOk n resp := by
  cases resp with
  | arr items =>
    by_cases hlen : items.length = n
    · subst hlen
      simp only [processBulkResponse, if_neg (by omega : ¬ items.length ≠ items.length)]
      simp only [specBulkResponseOk, Json.isSequence, Json.seqLen, Json.seqGet,
        beq_self_eq_true, Bool.true_and]
      rw [processItems_isOk]
      rw [show (fun i => specBulkItemOk ((items.get? i).getD Json.null)) =
            (fun i => (fun item => exceptIsOk (bulkItemResult item)) ((items.get? i).getD Json.null))
          from by funext i; exact (exceptIsOk_bulkItemResult _).symm]
      exact (all_range_getD items (fun item => exceptIsOk (bulkItemResult item))).symm
    · simp only [processBulkResponse, if_pos hlen, specBulkResponseOk, Json.isSequence,
        Json.seqLen]
      have : (items.length == n) = false := by simp [hlen]
      simp [this, exceptIsOk]
  | str s =>
    by_cases hlen : s.length = n
    · subst hlen
      by_cases h0 : s.length = 0
      · simp only [processBulkResponse, if_neg (by omega : ¬ s.length ≠ s.length), if_pos h0]
        simp [specBulkResponseOk, Json.isSequence, Json.seqLen, h0, exceptIsOk]
      · simp only [processBulkResponse, if_neg (by omega : ¬ s.length ≠ s.length), if_neg h0]
        have hall : (List.range ((Json.str s).seqLen)).all
            (fun i => specBulkItemOk (((Json.str s).seqGet i).getD .null)) = false := by
          rw [List.all_eq_false]
          refine ⟨0, by simp [Json.seqLen]; omega, ?_⟩
          have hlen2 : s.length = s.data.length := rfl
          rcases hdata : s.data with _ | ⟨c, cs⟩
          · have hz : s.length = 0 := by rw [hlen2, hdata]; rfl
            exact absurd hz h0
          · intro hx
            simp [Json.seqGet, hdata, specBulkItemOk] at hx
        simp only [specBulkResponseOk, hall, Bool.and_false, exceptIsOk]
    · simp only [processBulkResponse, if_pos hlen, specBulkResponseOk, Json.isSequence,
        Json.seqLen]
      have : (s.length == n) = false := by simp [hlen]
      simp [this, exceptIsOk]
  | null => rfl
  | bool b => rfl
  | num m => rfl
  | obj fields => rfl

theorem processBulkResponse_error_shape (n : Nat) (resp : Json) (e : PyError)
    (h : processBulkResponse n resp = .error e) : e = .invalidSugarResponse := by
  cases resp <;> simp only [processBulkResponse] at h
  case arr items =>
    split at h
    · injection h with h
      exact h.symm
    · exact processItems_error items e h
  case str s =>
    split at h
    · injection h with h
      exact h.symm
    · split at h
      · exact absurd h (by simp)
      · injection h with h
        exact h.symm
  all_goals
    injection h with h
    exact h.symm

theorem doneResults_forall₂ {ρ : Type} :
    ∀ (tasks : List (Action ρ)) (out : List ρ), doneResults tasks = some out →
      List.Forall₂ (fun a r => a = Action.done r) tasks out := by
  intro tasks
  induction tasks with
  | nil =>
    intro out h
    simp only [doneResults] at h
    injection h with h
    exact h ▸ .nil
  | cons a rest ih =>
    intro out h
    cases a with
    | done r =>
      simp only [doneResults] at h
      cases hrest : doneResults rest with
      | none => rw [hrest] at h; exact absurd h (by simp)
      | some rs =>
        rw [hrest] at h
        have h2 : some (r :: rs) = some out := h
        injection h2 with h2
        exact h2 ▸ .cons rfl (ih rs hrest)
    | request d k => exact nomatch h

theorem distribute_forall₂ {ρ : Type} (serverItem : Json → Json) :
    ∀ (tasks : List (Action ρ)) (results : List (Int × Json)),
      processItems ((pendingDefs tasks).map serverItem) = .ok results →
      List.Forall₂ (fun a a2 => stepTask serverItem a = .ok a2) tasks
        (distribute tasks results) := by
  intro tasks
  induction tasks with
  | nil => intro results _; exact .nil
  | cons a rest ih =>
    intro results h
    cases a with
    | done r =>
      exact .cons (by simp [stepTask]) (ih results h)
    | request d k =>
      rw [show processItems ((pendingDefs (Action.request d k :: rest)).map serverItem) =
            (bulkItemResult (serverItem d) >>= fun r =>
              processItems ((pendingDefs rest).map serverItem) >>= fun rs => pure (r :: rs))
          from rfl] at h
      cases hx : bulkItemResult (serverItem d) with
      | error e => rw [hx] at h; exact nomatch h
      | ok p =>
        rw [hx] at h
        cases hrest : processItems ((pendingDefs rest).map serverItem) with
        | error e => rw [hrest] at h; exact nomatch h
        | ok ps =>
          rw [hrest] at h
          have h2 : Except.ok (ε := PyError) (p :: ps) = .ok results := h
          injection h2 with h2
          subst h2
          exact .cons (by simp [stepTask, hx, Except.map]) (ih ps hrest)

theorem forall₂_compose {α β γ : Type} {R : α → β → Prop} {S : β → γ → Prop}
    {T : α → γ → Prop} (hT : ∀ a b c, R a b → S b c → T a c) :
    ∀ {l1 : List α} {l2 : List β} {l3 : List γ},
      List.Forall₂ R l1 l2 → List.Forall₂ S l2 l3 → List.Forall₂ T l1 l3 := by
  intro l1 l2 l3 h12
  induction h12 generalizing l3 with
  | nil => intro h23; cases h23; exact .nil
  | cons hab h ih =>
    intro h23
    cases h23 with
    | cons hbc h2 => exact .cons (hT _ _ _ hab hbc) (ih h2)

theorem runAction_done {ρ : Type} (serverItem : Json → Json) (fuel : Nat) (r : ρ) :
    runAction serverItem fuel (.done r) = some (.ok r) := by
  cases fuel <;> rfl

theorem runAction_succ_of_step {ρ : Type} (serverItem : Json → Json) (fuel : Nat)
    (a a2 : Action ρ) (r : ρ) (hstep : stepTask serverItem a = .ok a2)
    (hrun : runAction serverItem fuel a2 = some (.ok r)) :
    runAction serverItem (fuel + 1) a = some (.ok r) := by
  cases a with
  | done r0 =>
    simp only [stepTask] at hstep
    injection hstep with h
    subst h
    rw [runAction_done] at hrun
    rw [runAction_done]
    exact hrun
  | request d k =>
    simp only [stepTask] at hstep
    cases hx : bulkItemResult (serverItem d) with
    | error e => rw [hx] at hstep; exact absurd hstep (by simp [Except.map])
    | ok p =>
      rw [hx] at hstep
      simp only [Except.map] at hstep
      injection hstep with h
      subst h
      simpa [runAction, hx] using hrun

theorem bulkRun_forall₂ {ρ : Type} (serverItem : Json → Json) :
    ∀ (fuel : Nat) (tasks : List (Action ρ)) (out : List ρ),
      bulkRun (fun defs => Json.arr (defs.map serverItem)) fuel tasks = .ok (some out) →
      List.Forall₂ (fun a r => runAction serverItem fuel a = some (.ok r)) tasks out := by
  intro fuel
  induction fuel with
  | zero =>
    intro tasks out h
    simp only [bulkRun] at h
    cases hd : doneResults tasks with
    | none => rw [hd] at h; exact absurd h (by simp)
    | some rs =>
      rw [hd] at h
      have h2 : Except.ok (ε := PyError) (some rs) = .ok (some out) := h
      injection h2 with h2
      injection h2 with h2
      subst h2
      exact (doneResults_forall₂ tasks rs hd).imp
        (fun {a} {b} hab => by rw [hab]; exact runAction_done serverItem 0 b)
  | succ fuel ih =>
    intro tasks out h
    simp only [bulkRun] at h
    cases hd : doneResults tasks with
    | some rs =>
      rw [hd] at h
      have h2 : Except.ok (ε := PyError) (some rs) = .ok (some out) := h
      injection h2 with h2
      injection h2 with h2
      subst h2
      exact (doneResults_forall₂ tasks rs hd).imp
        (fun {a} {b} hab => by rw [hab]; exact runAction_done serverItem (fuel + 1) b)
    | none =>
      rw [hd] at h
      cases hp : processBulkResponse (pendingDefs tasks).length
          (Json.arr ((pendingDefs tasks).map serverItem)) with
      | error e => rw [hp] at h; exact nomatch h
      | ok results =>
        rw [hp] at h
        have h' : bulkRun (fun defs => Json.arr (defs.map serverItem)) fuel
            (distribute tasks results) = .ok (some out) := h
        have hmapm : processItems ((pendingDefs tasks).map serverItem) =
            .ok results := by
          simpa [processBulkResponse, List.length_map] using hp
        exact forall₂_compose (runAction_succ_of_step serverItem fuel)
          (distribute_forall₂ serverItem tasks results hmapm) (ih _ _ h')

/-- **C6.** The bulk response validation accepts a response exactly when it
is a sequence of the same length as the submitted batch whose every element
is a mapping carrying an integer `status` and a JSON-object `contents`
body; every rejection is the protocol-violation error; and on success the
coordinator loop returns one result per action, in the original action
order, each equal to what running that action alone against the same
per-request responses produces. -/
theorem claim_C6_bulk_protocol (ρ : Type) (serverItem : Json → Json) :
    (∀ (n : Nat) (resp : Json),
       exceptIsOk (processBulkResponse n resp) = specBulkResponseOk n resp) ∧
    (∀ (n : Nat) (resp : Json), specBulkResponseOk n resp = false →
       processBulkResponse n resp = .error .invalidSugarResponse) ∧
    (∀ (fuel : Nat) (actions : List (Action ρ)) (out : List ρ),
       bulkRun (fun defs => Json.arr (defs.map serverItem)) fuel actions = .ok (some out) →
       out.length = actions.length ∧
       ∀ (i : Nat) (h1 : i < actions.length) (h2 : i < out.length),
         runAction serverItem fuel (actions.get ⟨i, h1⟩) = some (.ok (out.get ⟨i, h2⟩))) := by
  refine ⟨processBulkResponse_isOk, ?_, ?_⟩
  · intro n resp h
    cases hp : processBulkResponse n resp with
    | ok v =>
      have := processBulkResponse_isOk n resp
      rw [hp, h] at this
      exact absurd this (by simp [exceptIsOk])
    | error e =>
      have he := processBulkResponse_error_shape n resp e hp
      rw [he]
  · intro fuel actions out h
    have hf := bulkRun_forall₂ serverItem fuel actions out h
    have hlen := hf.length_eq
    refine ⟨hlen.symm, ?_⟩
    intro i h1 h2
    exact List.forall₂_iff_get.mp hf |>.2 i h1 h2

theorem claim_C6_witness :
    exceptIsOk (processBulkResponse 1 (Json.str "x")) =
      specBulkResponseOk 1 (Json.str "x") ∧
    processBulkResponse 2 (Json.arr [Json.obj [("contents", Json.obj []), ("status", Json.num 200)]]) =
      .error .invalidSugarResponse ∧
    ((([7] : List Int).length = 1) ∧
     ∀ (i : Nat) (h1 : i < [Action.request (Json.str "d") (fun p => Action.done p.1)].length)
       (h2 : i < ([7] : List Int).length),
       runAction (fun _ => Json.obj [("contents", Json.obj []), ("status", Json.num 7)]) 2
           ([Action.request (Json.str "d") (fun p => Action.done p.1)].get ⟨i, h1⟩) =
         some (.ok (([7] : List Int).get ⟨i, h2⟩))) := by
  refine ⟨(claim_C6_bulk_protocol Int (fun _ => Json.null)).1 1 (Json.str "x"), ?_, ?_⟩
  · exact (claim_C6_bulk_protocol Int (fun _ => Json.null)).2.1 2
      (Json.arr [Json.obj [("contents", Json.obj []), ("status", Json.num 200)]]) (by decide)
  · exact (claim_C6_bulk_protocol Int
      (fun _ => Json.obj [("contents", Json.obj []), ("status", Json.num 7)])).2.2 2
      [Action.request (Json.str "d") (fun p => Action.done p.1)] [7] (by rfl)

end Zucker
